import Mathlib

/-!
Verification development for the CV-comparison backend (`src/api/views.py`).

The file shallowly embeds the two pure cores of the repository:

* the defensive response normalizer `normalize_result` (views.py lines 19-139),
  modelled on a type `PyVal` of JSON-like Python values, with Python
  exceptions (AttributeError / TypeError on `.get` of a non-dict, `{**d, **x}`
  of a non-mapping) modelled by `Option.none`;
* the payload extraction of `CompareCVsView.post` (lines 195-213) and the
  prompt compiler `CompareCVsView.craft_prompt` (lines 242-373), modelled on
  `List Char`.

Dicts are modelled as association lists in insertion order, matching CPython
dict semantics for the operations the code uses (lookup with default, `.copy()`
followed by a full-coverage `.update`, `{**defaults, **overrides}` merge).
Numeric leaves are modelled as rationals; the code only copies numbers around,
never computes with them, so the int/float distinction is immaterial.
-/

/-- JSON-like Python values as produced by `json.loads`. -/
inductive PyVal where
  | null
  | bool (b : Bool)
  | num (q : ℚ)
  | str (s : String)
  | list (xs : List PyVal)
  | dict (kvs : List (String × PyVal))

/-- Python dict lookup (first matching key; CPython dicts have unique keys). -/
def dlookup (k : String) : List (String × PyVal) → Option PyVal
  | [] => Option.none
  | (k', v) :: rest => if k = k' then some v else dlookup k rest

/-- `d.get(k, dflt)` on a dict known to be a dict: returns the stored value
(even when it is `null`), and the default only when the key is absent. -/
def dgetD (kvs : List (String × PyVal)) (k : String) (dflt : PyVal) : PyVal :=
  (dlookup k kvs).getD dflt

/-- `v.get(k, dflt)` on an arbitrary value: raises `AttributeError`
(modelled as `Option.none`) when `v` is not a dict. -/
def pyGetD (v : PyVal) (k : String) (dflt : PyVal) : Option PyVal :=
  match v with
  | .dict kvs => some (dgetD kvs k dflt)
  | _ => Option.none

/-- Field projection used only to state theorems about normalized outputs. -/
def getField (v : PyVal) (k : String) : Option PyVal :=
  match v with
  | .dict kvs => dlookup k kvs
  | _ => Option.none

/-- `_ensure_list` (views.py lines 19-25): a list stays as is, `None` becomes
empty, any other value becomes a singleton. -/
def ensure_list : PyVal → List PyVal
  | .list xs => xs
  | .null => []
  | v => [v]

/-- Python's `{**d, **e}` shallow merge: the keys of `d` in `d`'s order with
values overridden by `e` where present, then the keys of `e` absent from `d`
in `e`'s order. -/
def dictUpdate (d e : List (String × PyVal)) : List (String × PyVal) :=
  d.map (fun kv => (kv.1, (dlookup kv.1 e).getD kv.2)) ++
    e.filter (fun kv => (dlookup kv.1 d).isNone)

/-- `default_scores` (views.py lines 38-57). -/
def default_scores : List (String × PyVal) :=
  [("general_qualifications", .dict
      [("education", .num 0), ("years_of_experience", .num 0), ("total", .num 0)]),
   ("adequacy_for_assignment", .dict
      [("relevant_project_experience", .num 0), ("donor_experience", .num 0),
       ("regional_experience", .num 0), ("total", .num 0)]),
   ("specific_skills_competencies", .dict
      [("technical_skills", .num 0), ("language_proficiency", .num 0),
       ("certifications", .num 0), ("total", .num 0)]),
   ("total_score", .num 0)]

/-- `{**default_scores, **candidate.get("scores", {})}` (views.py line 103):
a `TypeError` (modelled `Option.none`) unless the value is a mapping. -/
def mergeScores (v : PyVal) : Option PyVal :=
  match v with
  | .dict kvs => some (.dict (dictUpdate default_scores kvs))
  | _ => Option.none

/-- `default_result["criteria"]` (views.py lines 72-81): the fixed rubric. -/
def default_criteria : List PyVal :=
  [.dict [("criterion", .str "Education"), ("weight", .num 10)],
   .dict [("criterion", .str "Years of Experience"), ("weight", .num 10)],
   .dict [("criterion", .str "Relevant Project Experience"), ("weight", .num 25)],
   .dict [("criterion", .str "Donor Experience (WB, ADB, etc.)"), ("weight", .num 15)],
   .dict [("criterion", .str "Regional Experience"), ("weight", .num 10)],
   .dict [("criterion", .str "Technical Skills"), ("weight", .num 15)],
   .dict [("criterion", .str "Language Proficiency"), ("weight", .num 10)],
   .dict [("criterion", .str "Certifications"), ("weight", .num 5)]]

/-- `default_result` (views.py lines 70-89). -/
def default_result : PyVal :=
  .dict [("tor_text", .str ""),
         ("criteria", .list default_criteria),
         ("candidates", .list []),
         ("comparison_matrix", .list []),
         ("final_recommendation", .dict
            [("best_candidate", .str "None"),
             ("final_decision", .str "None Suitable"),
             ("justification", .str "No suitable candidates found.")])]

/-- The candidate-loop body (views.py lines 98-110).  The source copies
`default_candidate` and then `update`s every one of its five keys, which
yields exactly the dict literal below (same keys, same insertion order). -/
def normCandidate (candidate : PyVal) : Option PyVal := do
  let name ← pyGetD candidate "candidate_name" (.str "Unnamed Candidate")
  let recommendation ← pyGetD candidate "recommendation" (.str "Not Evaluated")
  let scoresRaw ← pyGetD candidate "scores" (.dict [])
  let scores ← mergeScores scoresRaw
  let sj ← pyGetD candidate "summary_justification" (.dict [])
  let ks ← pyGetD sj "key_strengths" (.str "None provided.")
  let kw ← pyGetD sj "key_weaknesses" (.str "None provided.")
  let de ← pyGetD candidate "detailed_evaluation" (.list [])
  pure (.dict
    [("candidate_name", name),
     ("recommendation", recommendation),
     ("scores", scores),
     ("summary_justification", .dict
        [("key_strengths", ks), ("key_weaknesses", kw)]),
     ("detailed_evaluation", .list (ensure_list de))])

/-- The comparison-matrix loop body (views.py lines 115-120). -/
def normMatrixItem (item : PyVal) : Option PyVal := do
  let name ← pyGetD item "candidate_name" (.str "Unnamed Candidate")
  let ts ← pyGetD item "total_score" (.num 0)
  let rank ← pyGetD item "rank" (.num 0)
  pure (.dict [("candidate_name", name), ("total_score", ts), ("rank", rank)])

/-- The `for`-loop-with-append pattern of the source, as a monadic map. -/
def mapO (f : PyVal → Option PyVal) : List PyVal → Option (List PyVal)
  | [] => some []
  | x :: xs => do
      let y ← f x
      let ys ← mapO f xs
      pure (y :: ys)

/-- `normalize_result` (views.py lines 27-139).  `Option.none` models an
uncaught Python exception (surfaced by the view's catch-all as HTTP 500). -/
def normalize_result (result : PyVal) : Option PyVal :=
  match result with
  | .dict kvs => do
      let candidates := ensure_list (dgetD kvs "candidates" (.list []))
      let normalized_candidates ← mapO normCandidate candidates
      let comparison_matrix := ensure_list (dgetD kvs "comparison_matrix" (.list []))
      let normalized_matrix ← mapO normMatrixItem comparison_matrix
      let final_recommendation := dgetD kvs "final_recommendation" (.dict [])
      let bc ← pyGetD final_recommendation "best_candidate" (.str "None")
      let fd ← pyGetD final_recommendation "final_decision" (.str "None Suitable")
      let ju ← pyGetD final_recommendation "justification"
                 (.str "No suitable candidates found.")
      pure (.dict
        [("tor_text", dgetD kvs "tor_text" (.str "")),
         ("criteria", .list (ensure_list (dgetD kvs "criteria" (.list default_criteria)))),
         ("candidates", .list normalized_candidates),
         ("comparison_matrix", .list normalized_matrix),
         ("final_recommendation", .dict
            [("best_candidate", bc), ("final_decision", fd), ("justification", ju)])])
  | _ => some default_result

-- scratch sanity checks (to be removed)

def isDict : PyVal → Bool
  | .dict _ => true
  | _ => false

/-- The key is absent, or its value is a mapping. -/
def keyDictOrAbsent (c : PyVal) (k : String) : Bool :=
  match c with
  | .dict kvs =>
      match dlookup k kvs with
      | some v => isDict v
      | Option.none => true
  | _ => false

def safeCandidate (c : PyVal) : Bool :=
  isDict c && keyDictOrAbsent c "scores" && keyDictOrAbsent c "summary_justification"

def safeInput (x : PyVal) : Bool :=
  match x with
  | .dict kvs =>
      (ensure_list (dgetD kvs "candidates" (.list []))).all safeCandidate &&
      (ensure_list (dgetD kvs "comparison_matrix" (.list []))).all isDict &&
      isDict (dgetD kvs "final_recommendation" (.dict []))
  | _ => true

/-- Weight of a rubric entry, for stating that the default rubric sums to 100. -/
def weightOf (v : PyVal) : ℚ :=
  match getField v "weight" with
  | some (.num q) => q
  | _ => 0

def weightSum (l : List PyVal) : ℚ := (l.map weightOf).sum

/-- One left-to-right pass of Python `s.replace(pat, rep)` (non-overlapping,
leftmost-first; `pat` is nonempty at every use site).  The `skip` counter
consumes the remaining characters of a match already emitted. -/
def pyRep (pat rep : List Char) : Nat → List Char → List Char
  | _, [] => []
  | Nat.succ k, _ :: cs => pyRep pat rep k cs
  | 0, c :: cs =>
      if pat.isPrefixOf (c :: cs) then rep ++ pyRep pat rep (pat.length - 1) cs
      else c :: pyRep pat rep 0 cs

/-- Python `s.replace(pat, rep)`. -/
def pyReplace (s pat rep : List Char) : List Char := pyRep pat rep 0 s

/-- `esc` (views.py lines 245-246):
`text.replace('\\', '\\\\').replace('"', '\\"')`. -/
def esc (t : List Char) : List Char :=
  pyReplace (pyReplace t ['\\'] ['\\', '\\']) ['"'] ['\\', '"']

/-- Modelled from the spec (C5): re-parsing the embedded string literal, which
maps the two-character sequences backslash-backslash and backslash-quote back
to a single backslash resp. quote. -/
def unesc : List Char → List Char
  | [] => []
  | [c] => [c]
  | c :: d :: cs => if c = '\\' then d :: unesc cs else c :: unesc (d :: cs)

/-- Python `str.strip()` whitespace (ASCII part). -/
def pyIsSpace (c : Char) : Bool :=
  c = ' ' || c = '\t' || c = '\n' || c = '\r' || c = '\x0b' || c = '\x0c'

def pyStrip (s : List Char) : List Char :=
  ((s.dropWhile pyIsSpace).reverse.dropWhile pyIsSpace).reverse

/-- Lines 200-201: if the text is wrapped in a fenced marker
(`startswith('```json') and endswith('```')`), take `[7:-3]` and strip. -/
def fenceStrip (s : List Char) : List Char :=
  if "```json".toList.isPrefixOf s && "```".toList.isSuffixOf s then
    pyStrip ((s.drop 7).take ((s.drop 7).length - 3))
  else s

/-- The cleaned text of views.py lines 195-201: `response.text.strip()`,
`.strip()` again, then the fence strip. -/
def cleanedOf (ai_output : List Char) : List Char :=
  fenceStrip (pyStrip (pyStrip ai_output))

/-- Python `str.find` for a single character (as an `Option` instead of -1). -/
def firstIdx (c : Char) : List Char → Option Nat
  | [] => Option.none
  | d :: ds => if d = c then some 0 else (firstIdx c ds).map (· + 1)

/-- Python `str.rfind` for a single character. -/
def lastIdx (c : Char) (s : List Char) : Option Nat :=
  (firstIdx c s.reverse).map (fun k => s.length - 1 - k)

/-- Lines 203-212: if the cleaned text does not start with `'\x7b'`, locate the
first `'\x7b'` and the last `'\x7d'`; slice when the pair is properly ordered,
otherwise raise `ValueError` — a hard failure surfaced to the caller as an
HTTP 500 error, never the all-defaults fallback. -/
def extract_payload (ai_output : List Char) : Except String (List Char) :=
  let cleaned := cleanedOf ai_output
  if ['\x7b'].isPrefixOf cleaned then .ok cleaned
  else
    match firstIdx '\x7b' cleaned, lastIdx '\x7d' cleaned with
    | some f, some l =>
        if f < l then .ok ((cleaned.drop f).take (l + 1 - f))
        else .error "Invalid JSON format returned by AI."
    | some _, Option.none => .error "Invalid JSON format returned by AI."
    | Option.none, _ => .error "Invalid JSON format returned by AI."

/-- No occurrence of `pat` starts inside `a` when `a` is followed by `b`. -/
def noStart (pat b : List Char) : List Char → Bool
  | [] => true
  | c :: cs => !(pat.isPrefixOf ((c :: cs) ++ b)) && noStart pat b cs

/-- No proper nonempty suffix of `pat` is a prefix of `z`. -/
def noStrad (z : List Char) : List Char → Bool
  | [] => true
  | [_] => true
  | _ :: c :: cs => !((c :: cs).isPrefixOf z) && noStrad z (c :: cs)

/-- The two placeholders of the instruction template (views.py lines 370-371). -/
def torPat : List Char := "<<TOR_TEXT>>".toList

def cvsPat : List Char := "<<CVS_TEXT>>".toList

def tpre0 : List Char := "
You are a world-class recruitment AI and expert HR analyst. 
Analyze the provided CVs strictly against the Terms of Reference (ToR). 
You must always return **valid JSON only**. No extra text, no markdown.

===================\x3d===================\x3d============
SCORING CRITERIA (Fixed Weights):
General Qualifications - 20%
  - Education - 10%
  - Years of Experience - 10%
Adequacy for the Assignment - 50%
  - Relevant Project Experience - 25%
  - Donor Experience (WB, ADB, etc.) - 15%
  - Regional Experience - 10%
".toList

def tpre1 : List Char := "Specific Skills & Competencies - 30%
  - Technical Skills - 15%
  - Language Proficiency - 10%
  - Certifications - 5%
Total Score - 100%
===================\x3d===================\x3d============

RULES:
1. Deterministic: same input → same output.
2. Do not invent information. If missing, score = 0.
3. All scores must be numeric and total 100%.
4. Recommendations: choose **one best candidate** OR state \"No candidates are suitable\".
".toList

def tpre2 : List Char := "5. Each justification must cite explicit CV evidence (≤25 words). If no evidence, justification = \"No evidence in CV.\"
6. Output must be checked 3 times for correctness before finalizing.
7. Ensure all fields in the output schema are present, even if empty.

IMPORTANT RULES FOR SCORING:
- Each criterion must be scored strictly within its maximum weight. 
- Example: Education is out of 10, Experience is out of 10, Project Experience is out of 25, etc.
- The sum of all criteria MUST be exactly out of 100. 
".toList

def tpre3 : List Char := "- Do NOT exceed the maximum weight for any criterion.
- Final \"total_score\" must always be between 0 and 100 (rounded to 2 decimals).

===================\x3d===================\x3d============
OUTPUT FORMAT:
\x7b
  \"tor_text\": \"Full ToR Text\",
  \"criteria\": [
    \x7b\"criterion\": \"Education\", \"weight\": 10\x7d,
    \x7b\"criterion\": \"Years of Experience\", \"weight\": 10\x7d,
    \x7b\"criterion\": \"Relevant Project Experience\", \"weight\": 25\x7d,
    \x7b\"criterion\": \"Donor Experience (WB, ADB, etc.)\", \"weight\": 15\x7d,
".toList

def tpre4 : List Char := "    \x7b\"criterion\": \"Regional Experience\", \"weight\": 10\x7d,
    \x7b\"criterion\": \"Technical Skills\", \"weight\": 15\x7d,
    \x7b\"criterion\": \"Language Proficiency\", \"weight\": 10\x7d,
    \x7b\"criterion\": \"Certifications\", \"weight\": 5\x7d
  ],
  \"candidates\": [
    \x7b
      \"candidate_name\": \"string\",
      \"recommendation\": \"Suitable | Not Suitable\",
      \"scores\": \x7b
        \"general_qualifications\": \x7b
          \"education\": 0.0,
          \"years_of_experience\": 0.0,
          \"total\": 0.0
        \x7d,
        \"adequacy_for_assignment\": \x7b
".toList

def tpre5 : List Char := "          \"relevant_project_experience\": 0.0,
          \"donor_experience\": 0.0,
          \"regional_experience\": 0.0,
          \"total\": 0.0
        \x7d,
        \"specific_skills_competencies\": \x7b
          \"technical_skills\": 0.0,
          \"language_proficiency\": 0.0,
          \"certifications\": 0.0,
          \"total\": 0.0
        \x7d,
        \"total_score\": 0.0
      \x7d,
      \"summary_justification\": \x7b
        \"key_strengths\": \"string\",
        \"key_weaknesses\": \"string\"
      \x7d,
      \"detailed_evaluation\": [
".toList

def tpre6 : List Char := "        \x7b
          \"criterion\": \"string\",
          \"weight\": 0,
          \"score\": 0.0,
          \"justification\": \"string\"
        \x7d
      ]
    \x7d
  ],
  \"comparison_matrix\": [
    \x7b
      \"candidate_name\": \"string\",
      \"total_score\": 0.0,
      \"rank\": 1
    \x7d
  ],
  \"final_recommendation\": \x7b
    \"best_candidate\": \"Name or None\",
    \"final_decision\": \"Highly Suitable | Suitable | Not Suitable | None Suitable (if no one is suitable directly say Not Suitable for all cadidates)\",
    \"justification\": \x7b
".toList

def tpre7 : List Char := "    \"detailed_explanation\": \"Detailed explanation why best candidate is chosen OR why no one is suitable AND also explain other candidates are not chosen. Must include strengths, weaknesses, and comparison.\",
    \"why_he\": \"Why your recommended candidate is the best candidate. Full details explaining strengths, achievements, and suitability.\",
    \"why_not_others\": [
      \x7b
        \"candidate_name\": \"Candidate 1\",
".toList

def tpre8 : List Char := "        \"reason\": \"Explain why Candidate 1 was not recommended, including weaknesses or lack of match with ToR.\"
      \x7d,
      \x7b
        \"candidate_name\": \"Candidate 2\",
        \"reason\": \"Explain why Candidate 2 was not recommended...\"
      \x7d
      // Add more candidates here
    ]
  \x7d
\x7d
===================\x3d===================\x3d============

tor_text: ".toList

/-- The template text before `<<TOR_TEXT>>`. -/
def templatePre : List Char :=
  tpre0 ++ (tpre1 ++ (tpre2 ++ (tpre3 ++ (tpre4 ++ (tpre5 ++ (tpre6 ++ (tpre7 ++ tpre8)))))))

/-- The template between the two placeholders. -/
def templateMid : List Char := "
cvs: ".toList

/-- The template after `<<CVS_TEXT>>`. -/
def templateSuf : List Char := "
".toList

/-- The full template, written as its split at its two placeholder
occurrences (the source holds it as one literal). -/
def template : List Char :=
  templatePre ++ (torPat ++ (templateMid ++ (cvsPat ++ templateSuf)))

/-- One document entry of the serialized list (views.py line 249):
`'{"id":"cv' + str(i+1) + '","file_name":"' + esc(fn) + '","cv_text":"' +
esc(content) + '"}'`. -/
def cvEntry (i : Nat) (fname content : List Char) : List Char :=
  "\x7b\"id\":\"cv".toList ++ (Nat.repr (i + 1)).toList ++
    "\",\"file_name\":\"".toList ++ esc fname ++
    "\",\"cv_text\":\"".toList ++ esc content ++ "\"\x7d".toList

/-- `cvs_text` (views.py lines 248-251): `"[" + ", ".join(entries) + "]"`,
entries in input order, ids 1-based. -/
def cvs_text (cvs : List (List Char × List Char)) : List Char :=
  "[".toList ++
    List.intercalate ", ".toList (cvs.enum.map (fun p => cvEntry p.1 p.2.1 p.2.2)) ++
    "]".toList

/-- `craft_prompt` (views.py line 373):
`template.replace('<<TOR_TEXT>>', esc(tor)).replace('<<CVS_TEXT>>', cvs_text)`. -/
def craft_prompt (tor : List Char) (cvs : List (List Char × List Char)) : List Char :=
  pyReplace (pyReplace template torPat (esc tor)) cvsPat (cvs_text cvs)

/-- Modelled from the spec (C6): the template with exactly its own two
placeholder occurrences substituted — the escaped reference text for
`<<TOR_TEXT>>` and the serialized document list for `<<CVS_TEXT>>` — and
nothing else altered. -/
def craft_prompt_spec (tor : List Char) (cvs : List (List Char × List Char)) : List Char :=
  templatePre ++ (esc tor ++ (templateMid ++ (cvs_text cvs ++ templateSuf)))

lemma isDict_exists {v : PyVal} (h : isDict v = true) :
    ∃ kvs, v = .dict kvs := by
  cases v <;> simp_all [isDict]

lemma keyDictOrAbsent_dget {ck : List (String × PyVal)} {k : String}
    (h : keyDictOrAbsent (.dict ck) k = true) (d0 : List (String × PyVal)) :
    ∃ s, dgetD ck k (.dict d0) = .dict s := by
  cases hl : dlookup k ck with
  | none => exact ⟨d0, by simp [dgetD, hl]⟩
  | some v =>
      have h' : isDict v = true := by simpa [keyDictOrAbsent, hl] using h
      obtain ⟨s, rfl⟩ := isDict_exists h'
      exact ⟨s, by simp [dgetD, hl]⟩

lemma normCandidate_isSome {c : PyVal} (h : safeCandidate c = true) :
    (normCandidate c).isSome = true := by
  simp only [safeCandidate, Bool.and_eq_true] at h
  obtain ⟨⟨hd, hsc⟩, hsj⟩ := h
  obtain ⟨ck, rfl⟩ := isDict_exists hd
  obtain ⟨s, hs⟩ := keyDictOrAbsent_dget hsc []
  obtain ⟨sj, hsjv⟩ := keyDictOrAbsent_dget hsj []
  simp [normCandidate, pyGetD, hs, hsjv, mergeScores]

lemma normMatrixItem_isSome {c : PyVal} (h : isDict c = true) :
    (normMatrixItem c).isSome = true := by
  obtain ⟨ck, rfl⟩ := isDict_exists h
  simp [normMatrixItem, pyGetD]

lemma mapO_isSome {f : PyVal → Option PyVal} {l : List PyVal}
    (h : ∀ x ∈ l, (f x).isSome = true) : (mapO f l).isSome = true := by
  induction l with
  | nil => rfl
  | cons x xs ih =>
      obtain ⟨y, hy⟩ := Option.isSome_iff_exists.1 (h x (by simp))
      obtain ⟨ys, hys⟩ :=
        Option.isSome_iff_exists.1 (ih (fun z hz => h z (by simp [hz])))
      simp [mapO, hy, hys]

/-- Claim C1, amended:  `normalize_result` returns a complete `NormalizedResult`
(all five declared top-level fields present) for every non-mapping input and
for every mapping input whose list-coerced `candidates` elements are mappings
with mapping-or-absent `scores` and `summary_justification`, whose list-coerced
`comparison_matrix` elements are mappings, and whose `final_recommendation` is
a mapping or absent.  (On other inputs it raises, see the counterexample.) -/
theorem c1_totality_amended (x : PyVal) (h : safeInput x = true) :
    ∃ kvs, normalize_result x = some (.dict kvs) ∧
      kvs.map Prod.fst =
        ["tor_text", "criteria", "candidates", "comparison_matrix",
         "final_recommendation"] := by
  cases x with
  | dict kvs =>
      simp only [safeInput, Bool.and_eq_true] at h
      obtain ⟨⟨hc, hm⟩, hf⟩ := h
      obtain ⟨nc, hnc⟩ := Option.isSome_iff_exists.1
        (mapO_isSome (f := normCandidate)
          (fun c hcm => normCandidate_isSome (List.all_eq_true.1 hc c hcm)))
      obtain ⟨nm, hnm⟩ := Option.isSome_iff_exists.1
        (mapO_isSome (f := normMatrixItem)
          (fun c hcm => normMatrixItem_isSome (List.all_eq_true.1 hm c hcm)))
      obtain ⟨fk, hfk⟩ := isDict_exists hf
      refine ⟨[("tor_text", dgetD kvs "tor_text" (.str "")),
        ("criteria", .list (ensure_list (dgetD kvs "criteria" (.list default_criteria)))),
        ("candidates", .list nc),
        ("comparison_matrix", .list nm),
        ("final_recommendation", .dict
          [("best_candidate", dgetD fk "best_candidate" (.str "None")),
           ("final_decision", dgetD fk "final_decision" (.str "None Suitable")),
           ("justification", dgetD fk "justification" (.str "No suitable candidates found."))])],
        ?_, rfl⟩
      simp only [normalize_result]
      rw [hnc, hnm, hfk]
      rfl
  | null => exact ⟨_, rfl, rfl⟩
  | bool b => exact ⟨_, rfl, rfl⟩
  | num q => exact ⟨_, rfl, rfl⟩
  | str s => exact ⟨_, rfl, rfl⟩
  | list xs => exact ⟨_, rfl, rfl⟩

/-- Witness for C1 (amended): a malformed-but-safe input — a single mapping
`candidates` (wrong type, coerced to a singleton) with unknown keys. -/
theorem c1_totality_amended_witness :
    safeInput (.dict [("candidates", .dict [("oops", .null)])]) = true ∧
      ∃ kvs,
        normalize_result (.dict [("candidates", .dict [("oops", .null)])]) =
            some (.dict kvs) ∧
          kvs.map Prod.fst =
            ["tor_text", "criteria", "candidates", "comparison_matrix",
             "final_recommendation"] :=
  ⟨rfl, c1_totality_amended _ rfl⟩

/-- Claim C1, counterexample:  On the mapping `{"candidates": "x"}` (the claim's
own example of a deeply malformed mapping) `normalize_result` raises an
`AttributeError` (`Option.none` in this model) instead of returning a
`NormalizedResult`. -/
theorem c1_totality_counterexample :
    normalize_result (.dict [("candidates", .str "x")]) = Option.none := rfl

lemma normalize_dict_inverted {kvs : List (String × PyVal)} {r : PyVal}
    (h : normalize_result (.dict kvs) = some r) :
    ∃ nc nm fk,
      mapO normCandidate (ensure_list (dgetD kvs "candidates" (.list []))) = some nc ∧
      mapO normMatrixItem (ensure_list (dgetD kvs "comparison_matrix" (.list []))) = some nm ∧
      dgetD kvs "final_recommendation" (.dict []) = .dict fk ∧
      r = .dict
        [("tor_text", dgetD kvs "tor_text" (.str "")),
         ("criteria", .list (ensure_list (dgetD kvs "criteria" (.list default_criteria)))),
         ("candidates", .list nc),
         ("comparison_matrix", .list nm),
         ("final_recommendation", .dict
            [("best_candidate", dgetD fk "best_candidate" (.str "None")),
             ("final_decision", dgetD fk "final_decision" (.str "None Suitable")),
             ("justification", dgetD fk "justification"
               (.str "No suitable candidates found."))])] := by
  cases hnc : mapO normCandidate (ensure_list (dgetD kvs "candidates" (.list []))) with
  | none => simp [normalize_result, hnc] at h
  | some nc =>
    cases hnm : mapO normMatrixItem (ensure_list (dgetD kvs "comparison_matrix" (.list []))) with
    | none => simp [normalize_result, hnc, hnm] at h
    | some nm =>
      cases hfr : dgetD kvs "final_recommendation" (.dict []) with
      | dict fk =>
          refine ⟨nc, nm, fk, rfl, rfl, rfl, ?_⟩
          simp only [normalize_result, hnc, hnm, hfr] at h
          simpa [pyGetD] using h.symm
      | null => simp [normalize_result, hnc, hnm, hfr, pyGetD] at h
      | bool b => simp [normalize_result, hnc, hnm, hfr, pyGetD] at h
      | num q => simp [normalize_result, hnc, hnm, hfr, pyGetD] at h
      | str s => simp [normalize_result, hnc, hnm, hfr, pyGetD] at h
      | list xs => simp [normalize_result, hnc, hnm, hfr, pyGetD] at h

/-- Claim C3, amended:  The fixed 8-entry rubric (weights summing to 100) is used
only when the `criteria` key is wholly absent from the input mapping; an input
that supplies `"criteria": []` keeps the empty sequence (see counterexample). -/
theorem c3_criteria_fallback_amended (kvs : List (String × PyVal)) (r : PyVal)
    (h1 : dlookup "criteria" kvs = Option.none)
    (h2 : normalize_result (.dict kvs) = some r) :
    getField r "criteria" = some (.list default_criteria) ∧
      default_criteria.length = 8 ∧ weightSum default_criteria = 100 := by
  obtain ⟨nc, nm, fk, -, -, -, rfl⟩ := normalize_dict_inverted h2
  refine ⟨?_, rfl, ?_⟩
  · simp [getField, dlookup, dgetD, h1, ensure_list]
  · simp [weightSum, weightOf, default_criteria, getField, dlookup]
    try norm_num

/-- Witness for C3 (amended), at the empty input mapping. -/
theorem c3_criteria_fallback_amended_witness :
    getField default_result "criteria" = some (.list default_criteria) ∧
      default_criteria.length = 8 ∧ weightSum default_criteria = 100 :=
  c3_criteria_fallback_amended [] default_result rfl rfl

/-- Claim C3, counterexample:  For the input `{"criteria": []}` the claim fails:
the normalized `criteria` field is the empty sequence, not the 8-entry
rubric. -/
theorem c3_criteria_counterexample :
    (normalize_result (.dict [("criteria", .list [])])).bind
        (fun r => getField r "criteria") = some (.list []) ∧
      PyVal.list [] ≠ .list default_criteria :=
  ⟨rfl, by simp [default_criteria]⟩

/-- Claim C8, amended:  The normalized `tor_text` equals the input's `tor_text`
value whenever the key is present — whatever its type, a string or not — and
equals the empty string only when the key is absent.  (The unamended claim,
that non-string values are replaced by `""`, fails: see the counterexample.) -/
theorem c8_tor_text_amended (kvs : List (String × PyVal)) (r : PyVal)
    (h : normalize_result (.dict kvs) = some r) :
    (∀ v, dlookup "tor_text" kvs = some v → getField r "tor_text" = some v) ∧
      (dlookup "tor_text" kvs = Option.none → getField r "tor_text" = some (.str "")) := by
  obtain ⟨nc, nm, fk, -, -, -, rfl⟩ := normalize_dict_inverted h
  constructor
  · intro v hv
    simp [getField, dlookup, dgetD, hv]
  · intro hv
    simp [getField, dlookup, dgetD, hv]

/-- Witness for C8 (amended): a numeric `tor_text` is passed through. -/
theorem c8_tor_text_amended_witness :
    getField
      (.dict [("tor_text", .num 7),
        ("criteria", .list default_criteria),
        ("candidates", .list []), ("comparison_matrix", .list []),
        ("final_recommendation", .dict
          [("best_candidate", .str "None"),
           ("final_decision", .str "None Suitable"),
           ("justification", .str "No suitable candidates found.")])])
      "tor_text" = some (.num 7) :=
  (c8_tor_text_amended [("tor_text", .num 7)] _ rfl).1 (.num 7) rfl

/-- Claim C8, counterexample:  For input `{"tor_text": null}` the claim fails:
the null value is passed through instead of being defaulted to `""`. -/
theorem c8_tor_text_counterexample :
    (normalize_result (.dict [("tor_text", .null)])).bind
        (fun r => getField r "tor_text") = some PyVal.null ∧
      PyVal.null ≠ .str "" :=
  ⟨rfl, by simp⟩

lemma dlookup_append (k : String) (l1 l2 : List (String × PyVal)) :
    dlookup k (l1 ++ l2) =
      match dlookup k l1 with
      | some v => some v
      | Option.none => dlookup k l2 := by
  induction l1 with
  | nil => simp [dlookup]
  | cons kv rest ih =>
      by_cases hk : k = kv.1
      · simp [dlookup, hk]
      · simpa [dlookup, hk] using ih

lemma dlookup_mapped (d e : List (String × PyVal)) (k : String) :
    dlookup k (d.map (fun kv => (kv.1, (dlookup kv.1 e).getD kv.2))) =
      (dlookup k d).map (fun v => (dlookup k e).getD v) := by
  induction d with
  | nil => simp [dlookup]
  | cons kv rest ih =>
      by_cases hk : k = kv.1
      · simp [dlookup, hk]
      · simpa [dlookup, hk] using ih

lemma dlookup_filter_none {k : String} {e : List (String × PyVal)}
    (p : String × PyVal → Bool) (h : dlookup k e = Option.none) :
    dlookup k (e.filter p) = Option.none := by
  induction e with
  | nil => simp [dlookup]
  | cons kv rest ih =>
      by_cases hk : k = kv.1
      · simp [dlookup, hk] at h
      · have h' : dlookup k rest = Option.none := by simpa [dlookup, hk] using h
        by_cases hp : p kv
        · simpa [List.filter_cons, hp, dlookup, hk] using ih h'
        · simpa [List.filter_cons, hp] using ih h'

lemma dlookup_dictUpdate_absent (d e : List (String × PyVal)) (k : String)
    (h : dlookup k e = Option.none) :
    dlookup k (dictUpdate d e) = dlookup k d := by
  rw [dictUpdate, dlookup_append, dlookup_mapped]
  rw [dlookup_filter_none _ h, h]
  cases dlookup k d <;> simp

lemma dictUpdate_keys (d e : List (String × PyVal)) :
    (dictUpdate d e).map Prod.fst =
      d.map Prod.fst ++
        (e.filter (fun kv => (dlookup kv.1 d).isNone)).map Prod.fst := by
  simp [dictUpdate, Function.comp]

/-- Claim C2, amended:  The `scores` of a normalized candidate are the *shallow*
merge `{**default_scores, **upstream_scores}`: the four top-level keys
(`general_qualifications`, `adequacy_for_assignment`,
`specific_skills_competencies`, `total_score`) are always present, and any of
them that the upstream scores mapping omits carries the full default block
(every leaf `0.0`).  A sub-group mapping that the upstream *does* supply
replaces the default block wholesale, so leaves missing inside it stay missing
(see the counterexample). -/
theorem c2_score_merge_amended (ck s : List (String × PyVal)) (nc : PyVal)
    (hs : dgetD ck "scores" (PyVal.dict []) = PyVal.dict s)
    (h : normCandidate (PyVal.dict ck) = some nc) :
    ∃ m, getField nc "scores" = some (PyVal.dict m) ∧
      m.map Prod.fst =
        ["general_qualifications", "adequacy_for_assignment",
         "specific_skills_competencies", "total_score"] ++
          (s.filter (fun kv => (dlookup kv.1 default_scores).isNone)).map Prod.fst ∧
      ∀ k, dlookup k s = Option.none → dlookup k m = dlookup k default_scores := by
  cases hsj : dgetD ck "summary_justification" (PyVal.dict []) with
  | dict sjk =>
      simp only [normCandidate, pyGetD, hs, hsj, mergeScores] at h
      simp only [Option.some_bind, Option.pure_def] at h
      obtain rfl := Option.some_inj.1 h
      refine ⟨dictUpdate default_scores s, rfl, ?_, ?_⟩
      · simpa using dictUpdate_keys default_scores s
      · intro k hk
        exact dlookup_dictUpdate_absent default_scores s k hk
  | null => simp [normCandidate, pyGetD, hs, hsj, mergeScores] at h
  | bool b => simp [normCandidate, pyGetD, hs, hsj, mergeScores] at h
  | num q => simp [normCandidate, pyGetD, hs, hsj, mergeScores] at h
  | str st => simp [normCandidate, pyGetD, hs, hsj, mergeScores] at h
  | list xs => simp [normCandidate, pyGetD, hs, hsj, mergeScores] at h

/-- Witness for C2 (amended), at a candidate with no `scores` key at all. -/
theorem c2_score_merge_amended_witness :
    ∃ m,
      getField
        (.dict
          [("candidate_name", .str "Unnamed Candidate"),
           ("recommendation", .str "Not Evaluated"),
           ("scores", .dict default_scores),
           ("summary_justification", .dict
              [("key_strengths", .str "None provided."),
               ("key_weaknesses", .str "None provided.")]),
           ("detailed_evaluation", .list [])])
        "scores" = some (PyVal.dict m) ∧
      m.map Prod.fst =
        ["general_qualifications", "adequacy_for_assignment",
         "specific_skills_competencies", "total_score"] ++
          (([] : List (String × PyVal)).filter
            (fun kv => (dlookup kv.1 default_scores).isNone)).map Prod.fst ∧
      ∀ k, dlookup k ([] : List (String × PyVal)) = Option.none →
        dlookup k m = dlookup k default_scores :=
  c2_score_merge_amended [] [] _ rfl rfl

/-- Claim C2, counterexample:  A candidate whose upstream scores supply only the
`education` leaf of `general_qualifications`: the normalized sub-group is
exactly `{"education": 5}` and its `years_of_experience` leaf is missing, so
not every numeric leaf is present. -/
theorem c2_score_merge_counterexample :
    (normCandidate (.dict
        [("scores", .dict
          [("general_qualifications", .dict [("education", .num 5)])])])).bind
        (fun nc => (getField nc "scores").bind
          (fun sv => getField sv "general_qualifications")) =
        some (.dict [("education", .num 5)]) ∧
      dlookup "years_of_experience" [("education", PyVal.num 5)] = Option.none :=
  ⟨rfl, rfl⟩

lemma filt_idem (p : String × PyVal → Bool) (l : List (String × PyVal)) :
    (l.filter p).filter p = l.filter p := by
  induction l with
  | nil => rfl
  | cons kv rest ih => by_cases hp : p kv <;> simp [List.filter_cons, hp, ih]

/-- Re-merging an already-merged score block is a no-op: the four default keys
are re-overridden with their own values and the extra keys re-filtered. -/
lemma dictUpdate_ds_idem (s : List (String × PyVal)) :
    dictUpdate default_scores (dictUpdate default_scores s) =
      dictUpdate default_scores s :=
  congrArg (fun z =>
    ("general_qualifications", (dlookup "general_qualifications" s).getD (.dict
        [("education", .num 0), ("years_of_experience", .num 0), ("total", .num 0)])) ::
    ("adequacy_for_assignment", (dlookup "adequacy_for_assignment" s).getD (.dict
        [("relevant_project_experience", .num 0), ("donor_experience", .num 0),
         ("regional_experience", .num 0), ("total", .num 0)])) ::
    ("specific_skills_competencies", (dlookup "specific_skills_competencies" s).getD (.dict
        [("technical_skills", .num 0), ("language_proficiency", .num 0),
         ("certifications", .num 0), ("total", .num 0)])) ::
    ("total_score", (dlookup "total_score" s).getD (.num 0)) :: z)
    (filt_idem (fun kv => (dlookup kv.1 default_scores).isNone) s)

lemma normCandidate_idem (c nc : PyVal) (h : normCandidate c = some nc) :
    normCandidate nc = some nc := by
  cases c with
  | dict ck =>
      cases hs : dgetD ck "scores" (PyVal.dict []) with
      | dict s =>
          cases hsj : dgetD ck "summary_justification" (PyVal.dict []) with
          | dict sjk =>
              simp only [normCandidate, pyGetD, hs, hsj, mergeScores,
                Option.some_bind, Option.pure_def] at h
              obtain rfl := Option.some_inj.1 h
              exact congrArg (fun z => some (PyVal.dict
                [("candidate_name", dgetD ck "candidate_name" (.str "Unnamed Candidate")),
                 ("recommendation", dgetD ck "recommendation" (.str "Not Evaluated")),
                 ("scores", PyVal.dict z),
                 ("summary_justification", PyVal.dict
                    [("key_strengths", dgetD sjk "key_strengths" (.str "None provided.")),
                     ("key_weaknesses", dgetD sjk "key_weaknesses" (.str "None provided."))]),
                 ("detailed_evaluation",
                    PyVal.list (ensure_list (dgetD ck "detailed_evaluation" (.list []))))]))
                (dictUpdate_ds_idem s)
          | null => simp [normCandidate, pyGetD, hs, hsj, mergeScores] at h
          | bool b => simp [normCandidate, pyGetD, hs, hsj, mergeScores] at h
          | num q => simp [normCandidate, pyGetD, hs, hsj, mergeScores] at h
          | str st => simp [normCandidate, pyGetD, hs, hsj, mergeScores] at h
          | list xs => simp [normCandidate, pyGetD, hs, hsj, mergeScores] at h
      | null => simp [normCandidate, pyGetD, hs, mergeScores] at h
      | bool b => simp [normCandidate, pyGetD, hs, mergeScores] at h
      | num q => simp [normCandidate, pyGetD, hs, mergeScores] at h
      | str st => simp [normCandidate, pyGetD, hs, mergeScores] at h
      | list xs => simp [normCandidate, pyGetD, hs, mergeScores] at h
  | null => simp [normCandidate, pyGetD] at h
  | bool b => simp [normCandidate, pyGetD] at h
  | num q => simp [normCandidate, pyGetD] at h
  | str st => simp [normCandidate, pyGetD] at h
  | list xs => simp [normCandidate, pyGetD] at h

lemma normMatrixItem_idem (c ni : PyVal) (h : normMatrixItem c = some ni) :
    normMatrixItem ni = some ni := by
  cases c with
  | dict ck =>
      simp only [normMatrixItem, pyGetD, Option.some_bind, Option.pure_def] at h
      obtain rfl := Option.some_inj.1 h
      rfl
  | null => simp [normMatrixItem, pyGetD] at h
  | bool b => simp [normMatrixItem, pyGetD] at h
  | num q => simp [normMatrixItem, pyGetD] at h
  | str st => simp [normMatrixItem, pyGetD] at h
  | list xs => simp [normMatrixItem, pyGetD] at h

lemma mapO_idem {f : PyVal → Option PyVal}
    (hf : ∀ c y, f c = some y → f y = some y) :
    ∀ l l', mapO f l = some l' → mapO f l' = some l'
  | [], l', h => by
      simp only [mapO] at h
      obtain rfl := Option.some_inj.1 h
      rfl
  | x :: xs, l', h => by
      simp only [mapO] at h
      cases hx : f x with
      | none => rw [hx] at h; simp at h
      | some y =>
          rw [hx] at h
          cases hxs : mapO f xs with
          | none => rw [hxs] at h; simp at h
          | some ys =>
              rw [hxs] at h
              simp only [Option.some_bind, Option.pure_def] at h
              obtain rfl := Option.some_inj.1 h
              have h1 := hf x y hx
              have h2 := mapO_idem hf xs ys hxs
              simp [mapO, h1, h2]

/-- Claim C7, confirmed:  Normalization is idempotent: whenever
`normalize_result` succeeds, feeding the result (which is its own raw mapping
form) back through `normalize_result` succeeds and returns it unchanged. -/
theorem c7_idempotent (x r : PyVal) (h : normalize_result x = some r) :
    normalize_result r = some r := by
  cases x with
  | dict kvs =>
      obtain ⟨nc, nm, fk, hnc, hnm, hfk, rfl⟩ := normalize_dict_inverted h
      have hc : mapO normCandidate nc = some nc :=
        mapO_idem normCandidate_idem _ _ hnc
      have hm : mapO normMatrixItem nm = some nm :=
        mapO_idem normMatrixItem_idem _ _ hnm
      simp [normalize_result, dgetD, dlookup, ensure_list, pyGetD, hc, hm]
  | null => obtain rfl := Option.some_inj.1 h; rfl
  | bool b => obtain rfl := Option.some_inj.1 h; rfl
  | num q => obtain rfl := Option.some_inj.1 h; rfl
  | str st => obtain rfl := Option.some_inj.1 h; rfl
  | list xs => obtain rfl := Option.some_inj.1 h; rfl

/-- Witness for C7 at the empty input mapping (whose normalization is the
all-defaults result). -/
theorem c7_idempotent_witness :
    normalize_result default_result = some default_result :=
  c7_idempotent (.dict []) default_result rfl

/-- Claim C10, confirmed:  A normalized candidate's `detailed_evaluation` is
exactly the list-coercion (`_ensure_list`) of the upstream value — elements of
any type, with any missing or extra keys, appear verbatim and unvalidated —
whereas every successfully normalized `comparison_matrix` element is projected
onto exactly the three-field `{candidate_name, total_score, rank}` shape. -/
theorem c10_detailed_eval_verbatim (ck : List (String × PyVal)) (nc : PyVal)
    (h : normCandidate (PyVal.dict ck) = some nc) :
    getField nc "detailed_evaluation" =
        some (.list (ensure_list (dgetD ck "detailed_evaluation" (.list [])))) ∧
      ∀ it ni, normMatrixItem it = some ni →
        ∃ a b c, ni = .dict [("candidate_name", a), ("total_score", b), ("rank", c)] := by
  constructor
  · cases hs : dgetD ck "scores" (PyVal.dict []) with
    | dict s =>
        cases hsj : dgetD ck "summary_justification" (PyVal.dict []) with
        | dict sjk =>
            simp only [normCandidate, pyGetD, hs, hsj, mergeScores,
              Option.some_bind, Option.pure_def] at h
            obtain rfl := Option.some_inj.1 h
            rfl
        | null => simp [normCandidate, pyGetD, hs, hsj, mergeScores] at h
        | bool b => simp [normCandidate, pyGetD, hs, hsj, mergeScores] at h
        | num q => simp [normCandidate, pyGetD, hs, hsj, mergeScores] at h
        | str st => simp [normCandidate, pyGetD, hs, hsj, mergeScores] at h
        | list xs => simp [normCandidate, pyGetD, hs, hsj, mergeScores] at h
    | null => simp [normCandidate, pyGetD, hs, mergeScores] at h
    | bool b => simp [normCandidate, pyGetD, hs, mergeScores] at h
    | num q => simp [normCandidate, pyGetD, hs, mergeScores] at h
    | str st => simp [normCandidate, pyGetD, hs, mergeScores] at h
    | list xs => simp [normCandidate, pyGetD, hs, mergeScores] at h
  · intro it ni hni
    cases it with
    | dict ik =>
        simp only [normMatrixItem, pyGetD, Option.some_bind, Option.pure_def] at hni
        obtain rfl := Option.some_inj.1 hni
        exact ⟨_, _, _, rfl⟩
    | null => simp [normMatrixItem, pyGetD] at hni
    | bool b => simp [normMatrixItem, pyGetD] at hni
    | num q => simp [normMatrixItem, pyGetD] at hni
    | str st => simp [normMatrixItem, pyGetD] at hni
    | list xs => simp [normMatrixItem, pyGetD] at hni

/-- Witness for C10: a scalar `detailed_evaluation` (a bare string) survives as
a verbatim singleton. -/
theorem c10_detailed_eval_verbatim_witness :
    getField
        (.dict
          [("candidate_name", .str "Unnamed Candidate"),
           ("recommendation", .str "Not Evaluated"),
           ("scores", .dict default_scores),
           ("summary_justification", .dict
              [("key_strengths", .str "None provided."),
               ("key_weaknesses", .str "None provided.")]),
           ("detailed_evaluation", .list [.str "x"])])
        "detailed_evaluation" = some (.list [.str "x"]) ∧
      ∀ it ni, normMatrixItem it = some ni →
        ∃ a b c, ni = .dict [("candidate_name", a), ("total_score", b), ("rank", c)] :=
  c10_detailed_eval_verbatim [("detailed_evaluation", .str "x")] _ rfl

lemma unesc_cons2 (c d : Char) (cs : List Char) :
    unesc (c :: d :: cs) =
      if c = '\\' then d :: unesc cs else c :: unesc (d :: cs) := rfl

lemma pyRep_single_cons (a : Char) (r : List Char) (c : Char) (cs : List Char) :
    pyRep [a] r 0 (c :: cs) = (if c = a then r else [c]) ++ pyRep [a] r 0 cs := by
  by_cases h : c = a
  · subst h; simp [pyRep, List.isPrefixOf]
  · simp [pyRep, List.isPrefixOf, h, Ne.symm h]

lemma esc_cons (c : Char) (cs : List Char) :
    esc (c :: cs) =
      (if c = '\\' then ['\\', '\\']
       else if c = '"' then ['\\', '"'] else [c]) ++ esc cs := by
  by_cases h1 : c = '\\'
  · subst h1
    simp [esc, pyReplace, pyRep_single_cons]
  · by_cases h2 : c = '"'
    · subst h2
      simp [esc, pyReplace, pyRep_single_cons, h1]
    · simp [esc, pyReplace, pyRep_single_cons, h1, h2]

/-- Claim C5, confirmed:  Unescaping inverts the prompt compiler's escaping:
`unesc (esc t) = t` for every text `t` (in particular for texts containing
quotes and backslashes). -/
theorem c5_escape_roundtrip (t : List Char) : unesc (esc t) = t := by
  induction t with
  | nil => rfl
  | cons c cs ih =>
      rw [esc_cons]
      by_cases h1 : c = '\\'
      · subst h1
        simpa [unesc] using ih
      · by_cases h2 : c = '"'
        · subst h2
          simpa [unesc, h1] using ih
        · simp only [if_neg h1, if_neg h2, List.singleton_append]
          cases hcs : esc cs with
          | nil =>
              have hnil : cs = [] := by rw [← ih, hcs]; rfl
              subst hnil
              simp [hcs, unesc]
          | cons d ds =>
              rw [unesc_cons2, if_neg h1, ← hcs, ih]

lemma firstIdx_spec {c : Char} :
    ∀ {s : List Char} {i : Nat}, firstIdx c s = some i →
      i < s.length ∧ s[i]? = some c := by
  intro s
  induction s with
  | nil => intro i h; simp [firstIdx] at h
  | cons d ds ih =>
      intro i h
      by_cases hd : d = c
      · subst hd
        simp only [firstIdx, if_pos rfl] at h
        obtain rfl := Option.some_inj.1 h.symm
        simp
      · simp only [firstIdx, if_neg hd, Option.map_eq_some'] at h
        obtain ⟨j, hj, rfl⟩ := h
        obtain ⟨hlen, hget⟩ := ih hj
        exact ⟨by simpa using hlen, by simpa using hget⟩

lemma lastIdx_spec {c : Char} {s : List Char} {l : Nat}
    (h : lastIdx c s = some l) : l < s.length ∧ s[l]? = some c := by
  simp only [lastIdx, Option.map_eq_some'] at h
  obtain ⟨k, hk, rfl⟩ := h
  obtain ⟨hlen, hget⟩ := firstIdx_spec hk
  rw [List.length_reverse] at hlen
  have hl : s.length - 1 - k < s.length :=
    lt_of_le_of_lt (Nat.sub_le _ _)
      (Nat.sub_lt (Nat.lt_of_le_of_lt (Nat.zero_le k) hlen) Nat.one_pos)
  refine ⟨hl, ?_⟩
  rw [List.getElem?_reverse (by simpa using hlen)] at hget
  simpa using hget

/-- Claim C4, confirmed:  If the cleaned response text does not start with an
opening brace and contains no `'\x7b'` before a later `'\x7d'`, payload
extraction is a hard failure (`ValueError`, surfaced as an HTTP 500 error),
not a fall-back to the all-defaults result. -/
theorem c4_unrecoverable_payload (s : List Char)
    (h1 : ['\x7b'].isPrefixOf (cleanedOf s) = false)
    (h2 : ∀ i, i < (cleanedOf s).length → ∀ j, j < (cleanedOf s).length →
      i < j → ¬((cleanedOf s)[i]? = some '\x7b' ∧ (cleanedOf s)[j]? = some '\x7d')) :
    ∃ msg, extract_payload s = .error msg := by
  cases hf : firstIdx '\x7b' (cleanedOf s) with
  | none => exact ⟨"Invalid JSON format returned by AI.", by simp [extract_payload, h1, hf]⟩
  | some f =>
      cases hl : lastIdx '\x7d' (cleanedOf s) with
      | none => exact ⟨"Invalid JSON format returned by AI.", by simp [extract_payload, h1, hf, hl]⟩
      | some l =>
          obtain ⟨hfl, hfc⟩ := firstIdx_spec hf
          obtain ⟨hll, hlc⟩ := lastIdx_spec hl
          have hnlt : ¬ f < l := fun hlt => h2 f hfl l hll hlt ⟨hfc, hlc⟩
          exact ⟨"Invalid JSON format returned by AI.", by simp [extract_payload, h1, hf, hl, hnlt]⟩

/-- Witness for C4 at the spec's own example `"I cannot comply."`. -/
theorem c4_unrecoverable_payload_witness :
    ∃ msg, extract_payload "I cannot comply.".toList = .error msg :=
  c4_unrecoverable_payload "I cannot comply.".toList (by decide) (by decide)

lemma pyRep_skip_drop (pat rep : List Char) :
    ∀ (s : List Char) (k : Nat), pyRep pat rep k s = pyRep pat rep 0 (s.drop k)
  | [], k => by cases k <;> rfl
  | _ :: _, 0 => rfl
  | c :: cs, Nat.succ k => by
      rw [List.drop_succ_cons]
      exact pyRep_skip_drop pat rep cs k

/-- Replacement fires on a match at the head. -/
lemma pyRep_hit (pat rep ys : List Char) (h : pat ≠ []) :
    pyRep pat rep 0 (pat ++ ys) = rep ++ pyRep pat rep 0 ys := by
  cases pat with
  | nil => exact absurd rfl h
  | cons p pt =>
      have hpref : (p :: pt).isPrefixOf (p :: (pt ++ ys)) = true := by
        have := List.prefix_append (p :: pt) ys
        rw [List.cons_append] at this
        exact List.isPrefixOf_iff_prefix.2 this
      rw [List.cons_append]
      simp only [pyRep]
      rw [if_pos hpref, List.length_cons, Nat.succ_sub_one]
      rw [pyRep_skip_drop (p :: pt) rep (pt ++ ys) pt.length, List.drop_left]

/-- Replacement walks over a match-free region untouched. -/
lemma pyRep_skip (pat b rep : List Char) :
    ∀ a : List Char, noStart pat b a = true →
      pyRep pat rep 0 (a ++ b) = a ++ pyRep pat rep 0 b
  | [], _ => rfl
  | c :: a', h => by
      simp only [noStart, Bool.and_eq_true, Bool.not_eq_true'] at h
      obtain ⟨hnp, hrest⟩ := h
      rw [List.cons_append] at hnp ⊢
      simp only [pyRep]
      rw [if_neg (by simp [hnp]), pyRep_skip pat b rep a' hrest, List.cons_append]

lemma pyRep_none (pat rep s : List Char) (h : noStart pat [] s = true) :
    pyRep pat rep 0 s = s := by
  have h2 := pyRep_skip pat [] rep s h
  simpa [pyRep] using h2

lemma noStrad_spec (z : List Char) :
    ∀ pat : List Char, noStrad z pat = true →
      ∀ k, 1 ≤ k → k < pat.length → (pat.drop k).isPrefixOf z = false := by
  intro pat
  induction pat with
  | nil => intro h k h1 h2; simp at h2
  | cons a tl ih =>
      cases tl with
      | nil => intro h k h1 h2; simp at h2; omega
      | cons b cs =>
          intro h k h1 h2
          simp only [noStrad, Bool.and_eq_true, Bool.not_eq_true'] at h
          obtain ⟨hbc, hrest⟩ := h
          match k, h1 with
          | 1, _ => simpa using hbc
          | Nat.succ (Nat.succ j), _ =>
              have hlen : j + 1 < (b :: cs).length := by
                simp only [List.length_cons] at h2 ⊢
                omega
              have := ih hrest (j + 1) (by omega) hlen
              simpa [List.drop_succ_cons] using this

lemma prefix_of_append_or (pat t z : List Char)
    (h : pat.isPrefixOf (t ++ z) = true) : pat <+: t ∨ t <+: pat :=
  List.prefix_or_prefix_of_prefix (List.isPrefixOf_iff_prefix.1 h)
    (List.prefix_append t z)

/-- Extending the tail is harmless when `pat` does not occur in `a` and no
proper suffix of `pat` is a prefix of the tail `z`. -/
lemma noStart_extend2 (pat z : List Char) (hpz : noStrad z pat = true) :
    ∀ a : List Char, noStart pat [] a = true → noStart pat z a = true
  | [], _ => rfl
  | c :: cs, h2 => by
      simp only [noStart, Bool.and_eq_true, Bool.not_eq_true'] at h2 ⊢
      obtain ⟨h2a, h2b⟩ := h2
      rw [List.append_nil] at h2a
      refine ⟨?_, noStart_extend2 pat z hpz cs h2b⟩
      by_contra hx
      rw [Bool.not_eq_false] at hx
      rcases prefix_of_append_or pat (c :: cs) z hx with hca | hcb
      · rw [List.isPrefixOf_iff_prefix.2 hca] at h2a
        cases h2a
      · by_cases hlen : pat.length ≤ (c :: cs).length
        · have : c :: cs = pat := hcb.eq_of_length_le hlen
          rw [← this] at h2a
          rw [List.isPrefixOf_iff_prefix.2 List.prefix_rfl] at h2a
          cases h2a
        · obtain ⟨u, hu⟩ := hcb
          have hulen : (c :: cs).length + u.length = pat.length := by
            rw [← hu, List.length_append]
          have hdrop : pat.drop (c :: cs).length = u := by
            rw [← hu, List.drop_left]
          have hupre : u <+: z := by
            have hp := List.isPrefixOf_iff_prefix.1 hx
            rw [← hu] at hp
            exact (List.prefix_append_right_inj (c :: cs)).1 hp
          have hfalse := noStrad_spec z pat hpz (c :: cs).length
            (by simp) (by omega)
          rw [hdrop, List.isPrefixOf_iff_prefix.2 hupre] at hfalse
          cases hfalse

/-- A region free of the pattern's first character admits no match start,
whatever follows it. -/
lemma noStart_of_all (p : Char) (pt b : List Char) :
    ∀ a : List Char, a.all (fun c => !(c == p)) = true →
      noStart (p :: pt) b a = true
  | [], _ => rfl
  | c :: cs, h => by
      simp only [List.all_cons, Bool.and_eq_true, Bool.not_eq_true'] at h
      obtain ⟨hc, hrest⟩ := h
      simp only [noStart, Bool.and_eq_true, Bool.not_eq_true']
      refine ⟨?_, noStart_of_all p pt b cs hrest⟩
      have hpc : (p == c) = false := by
        have := beq_eq_false_iff_ne.1 hc
        exact beq_eq_false_iff_ne.2 (Ne.symm this)
      rw [List.cons_append]
      simp [List.isPrefixOf, hpc]

set_option maxRecDepth 10000 in
/-- The template text before the placeholders contains no `<` at all. -/
lemma templatePre_no_lt : templatePre.all (fun c => !(c == '<')) = true := by
  simp only [templatePre, List.all_append, Bool.and_eq_true]
  exact ⟨by decide, by decide, by decide, by decide, by decide, by decide,
    by decide, by decide, by decide⟩

/-- The first `replace`: the single `<<TOR_TEXT>>` occurrence is substituted
by the escaped reference text. -/
lemma first_replace (tor : List Char) :
    pyReplace template torPat (esc tor) =
      templatePre ++ (esc tor ++ (templateMid ++ (cvsPat ++ templateSuf))) := by
  unfold pyReplace template
  rw [pyRep_skip torPat _ (esc tor) templatePre
      (noStart_of_all '<' "<TOR_TEXT>>".toList _ templatePre templatePre_no_lt)]
  rw [pyRep_hit torPat (esc tor) _ (by decide)]
  rw [pyRep_none torPat (esc tor) _ (by decide)]

/-- Claim C6, amended:  The compiled prompt equals the constant template with
exactly its two placeholders substituted (escaped reference text, then the
serialized document list), **provided** the escaped reference text contains no
occurrence of `<<CVS_TEXT>>`.  Without that proviso the claim fails: the
second `replace` also rewrites placeholder text smuggled in through the
reference text (see the counterexample). -/
theorem c6_craft_prompt_amended (tor : List Char) (cvs : List (List Char × List Char))
    (h : noStart cvsPat [] (esc tor) = true) :
    craft_prompt tor cvs = craft_prompt_spec tor cvs := by
  unfold craft_prompt craft_prompt_spec
  rw [first_replace]
  unfold pyReplace
  rw [pyRep_skip cvsPat _ (cvs_text cvs) templatePre
      (noStart_of_all '<' "<CVS_TEXT>>".toList _ templatePre templatePre_no_lt)]
  rw [pyRep_skip cvsPat _ (cvs_text cvs) (esc tor)
      (noStart_extend2 cvsPat _ (by decide) (esc tor) h)]
  rw [pyRep_skip cvsPat _ (cvs_text cvs) templateMid (by decide)]
  rw [pyRep_hit cvsPat (cvs_text cvs) templateSuf (by decide)]
  rw [pyRep_none cvsPat (cvs_text cvs) templateSuf (by decide)]

/-- Witness for C6 (amended) at an ordinary reference text. -/
theorem c6_craft_prompt_amended_witness :
    noStart cvsPat [] (esc "hello".toList) = true ∧
      craft_prompt "hello".toList [] = craft_prompt_spec "hello".toList [] :=
  ⟨by decide, c6_craft_prompt_amended "hello".toList [] (by decide)⟩

/-- Claim C6, counterexample:  With reference text `"<<CVS_TEXT>>"` and no
documents, the compiled prompt is *not* the template with only its own two
placeholders substituted: the placeholder-like text inside the user-supplied
reference text is substituted too. -/
theorem c6_craft_prompt_counterexample :
    craft_prompt cvsPat [] ≠ craft_prompt_spec cvsPat [] := by
  have hesc : esc cvsPat = cvsPat := by decide
  have hct : cvs_text [] = "[]".toList := by decide
  have h1 : craft_prompt cvsPat [] =
      templatePre ++ ("[]".toList ++ (templateMid ++ ("[]".toList ++ templateSuf))) := by
    unfold craft_prompt
    rw [first_replace, hesc]
    unfold pyReplace
    rw [pyRep_skip cvsPat _ (cvs_text []) templatePre
        (noStart_of_all '<' "<CVS_TEXT>>".toList _ templatePre templatePre_no_lt)]
    rw [pyRep_hit cvsPat (cvs_text []) _ (by decide)]
    rw [pyRep_skip cvsPat _ (cvs_text []) templateMid (by decide)]
    rw [pyRep_hit cvsPat (cvs_text []) templateSuf (by decide)]
    rw [pyRep_none cvsPat (cvs_text []) templateSuf (by decide)]
    rw [hct]
  have h2 : craft_prompt_spec cvsPat [] =
      templatePre ++ (cvsPat ++ (templateMid ++ ("[]".toList ++ templateSuf))) := by
    unfold craft_prompt_spec
    rw [hesc, hct]
  intro h
  rw [h1, h2] at h
  have h3 := (List.append_right_inj templatePre).1 h
  exact absurd h3 (by decide)
